import Mathlib

/-!
Shallow embedding of the python-cli-task-manager repository
(src/task_manager.py, with src/main.py and src/utils.py as callers).

Modelling conventions:
* The Task class defines no custom equality, so Python `==` on tasks is
  object identity; identity is modelled by an explicit `oid : Nat` field on
  `Task` and Python task equality by `pyEq` (oid comparison). Distinct
  live objects always have distinct oids.
* Python numbers (`conclude_time`, timer durations) are modelled as `Rat`.
* Python `str.strip()` and `str.upper()` are modelled for the ASCII range
  (`pyStrip`, `String.toUpper`).
* `print` side effects are modelled as returned signal values; raised
  exceptions (`ValueError`, `KeyError`) are modelled by `Except String`.
* The JSON layer is modelled structurally: `TaskRecord` is a parsed record
  holding the five persisted fields, `Document` is the top-level object
  whose three keys may each be absent (`Option`), matching `data.get`.
* The countdown timer (`utils.timer_logic`) only sleeps and prints, so a
  Pomodoro run is modelled by the list of intervals it drives.
-/

namespace TaskM

/-- Priority enum from task_manager.py (LOW=1, MID=2, HIGH=3). -/
inductive Priority where
  | LOW
  | MID
  | HIGH
deriving DecidableEq, Repr

/-- The `.name` attribute of a Priority enum member. -/
def Priority.name : Priority → String
  | .LOW => "LOW"
  | .MID => "MID"
  | .HIGH => "HIGH"

/-- Operation enum from task_manager.py (DELETE=1, ADD=2). -/
inductive Operation where
  | DELETE
  | ADD
deriving DecidableEq, Repr

/-- The Task object's state: the five Python attributes plus `oid`, which
models object identity (see module comment). -/
structure Task where
  oid : Nat
  task_name : String
  description : String
  priority : Priority
  conclude_time : Rat
  _is_completed : Bool
deriving DecidableEq, Repr

/-- Python `==` on Task objects: the class defines no custom equality, so
this is object identity. -/
def pyEq (a b : Task) : Bool := a.oid == b.oid

/-- ASCII whitespace characters recognised by Python `str.strip()`. -/
def isPySpace (c : Char) : Bool :=
  c = ' ' || c = '\t' || c = '\n' || c = '\r' || c = '\x0b' || c = '\x0c'

/-- Python `str.strip()` (ASCII range). -/
def pyStrip (s : String) : String :=
  String.mk (((s.data.dropWhile isPySpace).reverse.dropWhile isPySpace).reverse)

/-- `Task.__init__`: validates and constructs. The `priority` argument is
`Option Priority`: `none` models a Python value that is not a member of the
Priority enum (rejected by the `isinstance` check); the string-typed checks
on `task_name` and `conclude_time` are enforced by the Lean types. -/
def Task.init (oid : Nat) (task_name description : String)
    (priority : Option Priority) (conclude_time : Rat) : Except String Task :=
  if pyStrip task_name = "" then .error "Task name cannot be empty."
  else
    match priority with
    | none => .error "Priority must be a valid Priority Enum member."
    | some p =>
      if conclude_time ≤ 0 then .error "Duration must be a positive number."
      else .ok { oid, task_name, description, priority := p, conclude_time,
                 _is_completed := false }

/-- The message printed by `Task.conclude_task`. -/
inductive ConcludeSignal where
  | completedNow
  | alreadyCompleted
deriving DecidableEq, Repr

/-- `Task.conclude_task`: marks the task completed, or reports that it
already was. -/
def Task.conclude_task (t : Task) : Task × ConcludeSignal :=
  if ! t._is_completed then ({ t with _is_completed := true }, .completedNow)
  else (t, .alreadyCompleted)

/-- One countdown interval driven by `utils.timer_logic` during a Pomodoro
run: a work interval or a break interval, with its duration in minutes. -/
inductive Interval where
  | work (minutes : Rat)
  | brk (minutes : Rat)
deriving DecidableEq, Repr

/-- The sequence of countdown intervals driven by `Task.start_pomodoro`:
for i in range(repeat_times), a work interval of `conclude_time` minutes,
followed by a break interval of `break_time_minutes` minutes unless
`i < repeat_times - 1` fails (no break after the last cycle). -/
def start_pomodoro_intervals (conclude_time break_time_minutes : Rat)
    (repeat_times : Nat) : List Interval :=
  (List.map (fun i =>
      [Interval.work conclude_time] ++
        (if i < repeat_times - 1 then [Interval.brk break_time_minutes] else []))
    (List.range repeat_times)).flatten

/-- A flattened task record as persisted in Task_lists.json: the dict
produced by `Task._to_dict` and consumed by `Task._from_dict`. -/
structure TaskRecord where
  task_name : String
  description : String
  priority : String
  conclude_time : Rat
  _is_completed : Bool
deriving DecidableEq, Repr

/-- `Task._to_dict`: flattens a task, storing the enum name string. -/
def Task.to_dict (t : Task) : TaskRecord :=
  { task_name := t.task_name, description := t.description,
    priority := t.priority.name, conclude_time := t.conclude_time,
    _is_completed := t._is_completed }

/-- Python `str.upper()` (ASCII range). -/
def pyUpper (s : String) : String := String.mk (s.data.map Char.toUpper)

/-- `Priority[s]`: enum lookup by member name; `none` models `KeyError`. -/
def priorityOfName (s : String) : Option Priority :=
  if s = "LOW" then some .LOW
  else if s = "MID" then some .MID
  else if s = "HIGH" then some .HIGH
  else none

/-- The priority reconstruction performed by `Task._from_dict`:
`Priority[data["priority"].upper()]`. -/
def parsePriority (s : String) : Option Priority :=
  priorityOfName (pyUpper s)

/-- `Task._from_dict`: reconstructs a task from a record via the validating
constructor, then restores the persisted completion flag. `oid` is the
fresh identity of the newly created object. -/
def Task.from_dict (data : TaskRecord) (oid : Nat) : Except String Task :=
  match parsePriority data.priority with
  | none => .error "KeyError: priority name not recognised"
  | some p =>
    match Task.init oid data.task_name data.description (some p)
        data.conclude_time with
    | .error e => .error e
    | .ok t => .ok { t with _is_completed := data._is_completed }

/-- TaskManager state: the three priority-bucketed task lists. -/
structure TaskManager where
  task_low : List Task
  task_mid : List Task
  task_high : List Task
deriving DecidableEq, Repr

/-- `TaskManager.__init__`: three empty lists. -/
def TaskManager.empty : TaskManager := ⟨[], [], []⟩

/-- The message printed by `TaskManager.list_manager`. -/
inductive Outcome where
  | added
  | removed
  | notFound
deriving DecidableEq, Repr

/-- The bucket selected by `list_manager`'s dict lookup on
`task.priority.name.lower()`. -/
def TaskManager.bucket (m : TaskManager) : Priority → List Task
  | .LOW => m.task_low
  | .MID => m.task_mid
  | .HIGH => m.task_high

/-- Writes back the bucket selected by priority (Python mutates the list
object in place; here the store is rebuilt with the new list). -/
def TaskManager.setBucket (m : TaskManager) : Priority → List Task → TaskManager
  | .LOW, l => { m with task_low := l }
  | .MID, l => { m with task_mid := l }
  | .HIGH, l => { m with task_high := l }

/-- `TaskManager.list_manager`: DELETE removes the first element `==` to
`task` from the bucket matching `task.priority` if present (list.remove),
otherwise reports not-found; any other operation appends (ADD). -/
def TaskManager.list_manager (m : TaskManager) (task : Task)
    (operation : Operation) : TaskManager × Outcome :=
  let target_list := m.bucket task.priority
  match operation with
  | .DELETE =>
    if target_list.any (fun x => pyEq x task) then
      (m.setBucket task.priority (target_list.eraseP (fun x => pyEq x task)),
       .removed)
    else (m, .notFound)
  | .ADD => (m.setBucket task.priority (target_list ++ [task]), .added)

/-- A finite sequence of `list_manager` calls applied in order. -/
def applyOps (ops : List (Task × Operation)) (m : TaskManager) : TaskManager :=
  ops.foldl (fun acc p => (acc.list_manager p.1 p.2).1) m

/-- Every task sits in the bucket matching its own priority. -/
abbrev bucketInv (m : TaskManager) : Prop :=
  (∀ t ∈ m.task_low, t.priority = .LOW) ∧
  (∀ t ∈ m.task_mid, t.priority = .MID) ∧
  (∀ t ∈ m.task_high, t.priority = .HIGH)

/-- The constructor invariants of a Task object (always true of objects
produced by `Task.init`). -/
abbrev validTask (t : Task) : Prop :=
  pyStrip t.task_name ≠ "" ∧ 0 < t.conclude_time

/-- Every task in the store satisfies the constructor invariants. -/
abbrev validStore (m : TaskManager) : Prop :=
  (∀ t ∈ m.task_low, validTask t) ∧ (∀ t ∈ m.task_mid, validTask t) ∧
    (∀ t ∈ m.task_high, validTask t)

/-- The five Python attributes of a task, without the identity `oid`. -/
def fieldsOf (t : Task) : String × String × Priority × Rat × Bool :=
  (t.task_name, t.description, t.priority, t.conclude_time, t._is_completed)

/-- A record that `Task._from_dict` accepts. -/
abbrev recOk (r : TaskRecord) : Prop :=
  (parsePriority r.priority).isSome ∧ pyStrip r.task_name ≠ "" ∧
    0 < r.conclude_time

/-- The persisted JSON document: three top-level keys, each possibly
absent. -/
structure Document where
  high : Option (List TaskRecord)
  mid : Option (List TaskRecord)
  low : Option (List TaskRecord)
deriving DecidableEq, Repr

/-- `save_tasks`: encodes the three buckets of the store, high/mid/low. -/
def save_tasks (m : TaskManager) : Document :=
  { high := some (m.task_high.map Task.to_dict),
    mid := some (m.task_mid.map Task.to_dict),
    low := some (m.task_low.map Task.to_dict) }

/-- One import loop of `import_tasks`: reconstructs each record in order
and adds it to the store; the first failing record aborts the loop (the
exception propagates), keeping the store mutations already made. `oid` is
the identity counter supplying fresh object identities. -/
def importList : List TaskRecord → Nat → TaskManager →
    Option String × Nat × TaskManager
  | [], oid, m => (none, oid, m)
  | r :: rest, oid, m =>
    match Task.from_dict r oid with
    | .error e => (some e, oid, m)
    | .ok t => importList rest (oid + 1) (m.list_manager t .ADD).1

/-- `import_tasks` on an already-parsed document: processes the "high",
"mid", "low" keys in that order (`data.get` treats a missing key as `[]`);
an exception in one loop skips the remaining loops but keeps all additions
made so far (caught by the surrounding `except`). -/
def import_tasks (doc : Document) (oid : Nat) (m : TaskManager) :
    Option String × TaskManager :=
  match importList (doc.high.getD []) oid m with
  | (some e, _, m1) => (some e, m1)
  | (none, oid1, m1) =>
    match importList (doc.mid.getD []) oid1 m1 with
    | (some e, _, m2) => (some e, m2)
    | (none, oid2, m2) =>
      match importList (doc.low.getD []) oid2 m2 with
      | (e3, _, m3) => (e3, m3)

/-- The tasks `import_tasks` recreates from a bucket of the document
produced by `save_tasks`: same five fields, fresh consecutive oids. -/
def cloneList : List Task → Nat → List Task
  | [], _ => []
  | t :: ts, oid =>
    { oid, task_name := t.task_name, description := t.description,
      priority := t.priority, conclude_time := t.conclude_time,
      _is_completed := t._is_completed } :: cloneList ts (oid + 1)

/-- The records of a document in the order `import_tasks` processes them:
the "high" list, then "mid", then "low" (a missing key as the empty
sequence, matching `data.get`). -/
def docRecords (doc : Document) : List TaskRecord :=
  doc.high.getD [] ++ doc.mid.getD [] ++ doc.low.getD []

/-- Total number of tasks held across the three buckets. -/
def storeSize (m : TaskManager) : Nat :=
  m.task_low.length + m.task_mid.length + m.task_high.length

/-- Discriminator for work intervals. -/
def Interval.isWork : Interval → Bool
  | .work _ => true
  | .brk _ => false

/-- Discriminator for break intervals. -/
def Interval.isBrk : Interval → Bool
  | .work _ => false
  | .brk _ => true

/-! ## Helper lemmas -/

/-- Reading back the bucket written by `setBucket`. -/
theorem bucket_setBucket (m : TaskManager) (p q : Priority) (l : List Task) :
    (m.setBucket p l).bucket q = if q = p then l else m.bucket q := by
  cases p <;> cases q <;>
    simp [TaskManager.setBucket, TaskManager.bucket]

/-- Writing a bucket back unchanged is a no-op. -/
theorem setBucket_bucket_self (m : TaskManager) (p : Priority) :
    m.setBucket p (m.bucket p) = m := by
  cases p <;> rfl

/-- Two consecutive writes to the same bucket keep only the second. -/
theorem setBucket_setBucket (m : TaskManager) (p : Priority)
    (l1 l2 : List Task) : (m.setBucket p l1).setBucket p l2 = m.setBucket p l2 := by
  cases p <;> rfl

/-- `bucketInv` phrased through the bucket selector. -/
theorem bucketInv_iff (m : TaskManager) :
    bucketInv m ↔ ∀ p, ∀ t ∈ m.bucket p, t.priority = p := by
  unfold bucketInv
  constructor
  · rintro ⟨h1, h2, h3⟩ p
    cases p
    · exact h1
    · exact h2
    · exact h3
  · intro h
    exact ⟨h .LOW, h .MID, h .HIGH⟩

/-! ## Claim theorems -/

/-- Claim C3: task creation raises ValidationError if and only if the name
is empty or whitespace-only, or the priority is not one of the three
enumeration values, or the estimated time is not a strictly positive
number; for every valid input it returns a task with completed = false and
the given field values. -/
theorem task_init_validation (oid : Nat) (task_name description : String)
    (priority : Option Priority) (conclude_time : Rat) :
    ((∃ e, Task.init oid task_name description priority conclude_time =
        .error e) ↔
      pyStrip task_name = "" ∨ priority = none ∨ conclude_time ≤ 0) ∧
    (∀ p, priority = some p → pyStrip task_name ≠ "" → 0 < conclude_time →
      Task.init oid task_name description priority conclude_time =
        .ok { oid, task_name, description, priority := p, conclude_time,
              _is_completed := false }) := by
  unfold Task.init
  by_cases h1 : pyStrip task_name = ""
  · simp [h1]
  · rcases priority with _ | p
    · simp [h1]
    · by_cases h3 : conclude_time ≤ 0
      · simp [h1, h3, not_lt.mpr h3]
      · simp [h1, h3, lt_of_not_le h3]

/-- Claim C3 witness: a concrete valid input yields a non-completed task,
and a concrete whitespace-only name is rejected. -/
theorem task_init_validation_witness :
    Task.init 0 "Write report" "Q3 summary" (some .HIGH) 25 =
      .ok { oid := 0, task_name := "Write report",
            description := "Q3 summary", priority := .HIGH,
            conclude_time := 25, _is_completed := false } ∧
    (∃ e, Task.init 1 " " "d" (some .LOW) 5 = .error e) := by
  constructor
  · exact (task_init_validation 0 "Write report" "Q3 summary" (some .HIGH)
      25).2 .HIGH rfl (by decide) (by decide)
  · exact (task_init_validation 1 " " "d" (some .LOW) 5).1.mpr
      (Or.inl (by decide))

/-- Claim C5: the completion action is idempotent: after one call the task
is completed, and a second call returns the task unchanged with only an
already-completed signal. -/
theorem conclude_task_idempotent (t : Task) :
    t.conclude_task.1._is_completed = true ∧
      t.conclude_task.1.conclude_task =
        (t.conclude_task.1, ConcludeSignal.alreadyCompleted) := by
  by_cases h : t._is_completed <;> simp [Task.conclude_task, h]

/-- Claim C10: decoding the priority field is case-insensitive: any
letter-case variant of an enumeration name reconstructs the corresponding
Priority value, while encoding always emits the uppercase enumeration
name. -/
theorem priority_decode_case_insensitive (r : TaskRecord) (oid : Nat)
    (p : Priority) (hcase : pyUpper r.priority = p.name)
    (hname : pyStrip r.task_name ≠ "") (htime : 0 < r.conclude_time) :
    Task.from_dict r oid =
      .ok { oid, task_name := r.task_name, description := r.description,
            priority := p, conclude_time := r.conclude_time,
            _is_completed := r._is_completed } ∧
    (∀ t : Task, (Task.to_dict t).priority = t.priority.name ∧
      pyUpper t.priority.name = t.priority.name) := by
  constructor
  · have hp : parsePriority r.priority = some p := by
      unfold parsePriority
      rw [hcase]
      cases p <;> rfl
    unfold Task.from_dict
    rw [hp]
    unfold Task.init
    simp [hname, not_le.mpr htime]
  · intro t
    refine ⟨rfl, ?_⟩
    cases t.priority <;> rfl

/-- Claim C10 witness: the lowercase string "high" decodes to HIGH. The
record fields are task_name, description, priority, conclude_time,
_is_completed; the task fields are oid, task_name, description, priority,
conclude_time, _is_completed. -/
theorem priority_decode_case_insensitive_witness :
    Task.from_dict ⟨"Write report", "Q3 summary", "high", 25, true⟩ 3 =
      .ok ⟨3, "Write report", "Q3 summary", .HIGH, 25, true⟩ :=
  (priority_decode_case_insensitive
    ⟨"Write report", "Q3 summary", "high", 25, true⟩
    3 .HIGH (by decide) (by decide) (by decide)).1

/-- Claim C7: removing a task with no Python-equal element in the bucket
matching its priority reports not-found and leaves every bucket exactly as
it was. -/
theorem remove_absent_not_found (m : TaskManager) (t : Task)
    (h : ∀ x ∈ m.bucket t.priority, pyEq x t = false) :
    m.list_manager t .DELETE = (m, .notFound) := by
  have hna : (m.bucket t.priority).any (fun x => pyEq x t) = false := by
    rw [List.any_eq_false]
    intro x hx
    simp [h x hx]
  simp [TaskManager.list_manager, hna]

/-- Claim C7 witness: removing a task absent from a store holding one
other LOW-priority task reports not-found and changes nothing. -/
theorem remove_absent_not_found_witness :
    TaskManager.list_manager
        ⟨[⟨1, "chores", "", .LOW, 10, false⟩], [], []⟩
        ⟨2, "shopping", "", .LOW, 15, false⟩ .DELETE =
      (⟨[⟨1, "chores", "", .LOW, 10, false⟩], [], []⟩, .notFound) :=
  remove_absent_not_found _ _ (by decide)

/-- Erasing by a predicate that first matches at `x` drops exactly `x`. -/
theorem eraseP_first_match {α : Type} (p : α → Bool) (x : α)
    (l2 : List α) : ∀ l1 : List α, (∀ y ∈ l1, p y = false) → p x = true →
    (l1 ++ x :: l2).eraseP p = l1 ++ l2 := by
  intro l1
  induction l1 with
  | nil =>
    intro _ hx
    simpa using List.eraseP_cons_of_pos hx
  | cons a l1 ih =>
    intro h1 hx
    have ha : ¬ p a = true := by simp [h1 a (by simp)]
    simp only [List.cons_append, List.eraseP_cons_of_neg ha]
    rw [ih (fun y hy => h1 y (by simp [hy])) hx]

/-- Claim C6 as stated is false on the code: Task defines no structural
equality, so `list.remove` compares by object identity. A store holding a
task equal in all five fields to the argument but a distinct instance
reports not-found instead of removing it. -/
theorem remove_structural_equality_cex :
    fieldsOf ⟨1, "a", "b", .LOW, 5, false⟩ =
      fieldsOf ⟨2, "a", "b", .LOW, 5, false⟩ ∧
    (⟨1, "a", "b", .LOW, 5, false⟩ : Task) ≠ ⟨2, "a", "b", .LOW, 5, false⟩ ∧
    TaskManager.list_manager ⟨[⟨2, "a", "b", .LOW, 5, false⟩], [], []⟩
        ⟨1, "a", "b", .LOW, 5, false⟩ .DELETE =
      (⟨[⟨2, "a", "b", .LOW, 5, false⟩], [], []⟩, .notFound) := by
  decide

/-- Claim C6 amended: remove deletes the first task in the matching
priority bucket that is Python-equal (the same object instance) to the
argument and reports removed; tasks equal in all fields but distinct
instances are not interchangeable. -/
theorem remove_identity_first_match (m : TaskManager) (t x : Task)
    (l1 l2 : List Task) (hb : m.bucket t.priority = l1 ++ x :: l2)
    (h1 : ∀ y ∈ l1, pyEq y t = false) (hx : pyEq x t = true) :
    m.list_manager t .DELETE =
      (m.setBucket t.priority (l1 ++ l2), .removed) := by
  have hany : (m.bucket t.priority).any (fun y => pyEq y t) = true := by
    rw [hb, List.any_eq_true]
    exact ⟨x, by simp, hx⟩
  have her : (m.bucket t.priority).eraseP (fun y => pyEq y t) = l1 ++ l2 := by
    rw [hb]
    exact eraseP_first_match _ x l2 l1 h1 hx
  simp [TaskManager.list_manager, hany, her]

/-- Claim C6 amended witness: removing a task present as the same instance
(second in its bucket) deletes exactly that entry. -/
theorem remove_identity_first_match_witness :
    TaskManager.list_manager
        ⟨[⟨1, "chores", "", .LOW, 10, false⟩,
          ⟨2, "shopping", "", .LOW, 5, false⟩], [], []⟩
        ⟨2, "shopping", "", .LOW, 5, false⟩ .DELETE =
      (⟨[⟨1, "chores", "", .LOW, 10, false⟩], [], []⟩, .removed) := by
  have h := remove_identity_first_match
    ⟨[⟨1, "chores", "", .LOW, 10, false⟩,
      ⟨2, "shopping", "", .LOW, 5, false⟩], [], []⟩
    ⟨2, "shopping", "", .LOW, 5, false⟩
    ⟨2, "shopping", "", .LOW, 5, false⟩
    [⟨1, "chores", "", .LOW, 10, false⟩] [] rfl (by decide) (by decide)
  simpa [TaskManager.setBucket] using h

/-- Claim C9: a Pomodoro run with at least one cycle drives exactly
cycle_count work intervals of the task's estimated duration and
cycle_count - 1 break intervals of the break duration, alternating work
then break, with no break after the final work interval. -/
theorem pomodoro_schedule (work_t break_t : Rat) (n : Nat) (h : 1 ≤ n) :
    start_pomodoro_intervals work_t break_t n =
      (List.replicate (n - 1)
        [Interval.work work_t, Interval.brk break_t]).flatten ++
        [Interval.work work_t] ∧
    (start_pomodoro_intervals work_t break_t n).countP Interval.isWork = n ∧
    (start_pomodoro_intervals work_t break_t n).countP Interval.isBrk =
      n - 1 := by
  obtain ⟨m, rfl⟩ : ∃ m, n = m + 1 := ⟨n - 1, by omega⟩
  have key : start_pomodoro_intervals work_t break_t (m + 1) =
      (List.replicate m
        [Interval.work work_t, Interval.brk break_t]).flatten ++
        [Interval.work work_t] := by
    unfold start_pomodoro_intervals
    rw [List.range_succ, List.map_append, List.flatten_append]
    have hcongr : List.map (fun i =>
        [Interval.work work_t] ++
          (if i < m + 1 - 1 then [Interval.brk break_t] else []))
        (List.range m) =
        List.replicate m [Interval.work work_t, Interval.brk break_t] := by
      have hfun : ∀ i ∈ List.range m,
          [Interval.work work_t] ++
            (if i < m + 1 - 1 then [Interval.brk break_t] else []) =
          [Interval.work work_t, Interval.brk break_t] := by
        intro i hi
        have him : i < m := List.mem_range.mp hi
        simp [him]
      rw [List.map_congr_left hfun, List.map_const', List.length_range]
    rw [hcongr]
    simp
  refine ⟨key, ?_, ?_⟩ <;>
    simp [key, List.countP_append, List.countP_flatten, List.map_replicate,
      List.sum_replicate, List.countP_cons, Interval.isWork, Interval.isBrk,
      smul_eq_mul]

/-- Claim C9 witness: three cycles of a 20-minute task with 5-minute
breaks give work, break, work, break, work. -/
theorem pomodoro_schedule_witness :
    start_pomodoro_intervals 20 5 3 =
      (List.replicate 2 [Interval.work 20, Interval.brk 5]).flatten ++
        [Interval.work 20] ∧
    (start_pomodoro_intervals 20 5 3).countP Interval.isWork = 3 ∧
    (start_pomodoro_intervals 20 5 3).countP Interval.isBrk = 2 :=
  pomodoro_schedule 20 5 3 (by decide)

/-- One `list_manager` call preserves the bucket invariant. -/
theorem list_manager_preserves_bucketInv (m : TaskManager) (t : Task)
    (op : Operation) (h : bucketInv m) : bucketInv (m.list_manager t op).1 := by
  rw [bucketInv_iff] at h ⊢
  intro p x hx
  rcases op with _ | _
  · by_cases ha : (m.bucket t.priority).any (fun y => pyEq y t) = true
    · simp only [TaskManager.list_manager, ha, if_true] at hx
      rw [bucket_setBucket] at hx
      by_cases hpq : p = t.priority
      · subst hpq
        rw [if_pos rfl] at hx
        exact h _ x (List.mem_of_mem_eraseP hx)
      · rw [if_neg hpq] at hx
        exact h p x hx
    · simp only [TaskManager.list_manager, ha, if_false] at hx
      exact h p x hx
  · simp only [TaskManager.list_manager] at hx
    rw [bucket_setBucket] at hx
    by_cases hpq : p = t.priority
    · subst hpq
      rw [if_pos rfl] at hx
      rcases List.mem_append.mp hx with hx1 | hx1
      · exact h _ x hx1
      · rw [List.mem_singleton.mp hx1]
    · rw [if_neg hpq] at hx
      exact h p x hx

/-- Any sequence of `list_manager` calls preserves the bucket invariant. -/
theorem applyOps_preserves_bucketInv (ops : List (Task × Operation)) :
    ∀ m : TaskManager, bucketInv m → bucketInv (applyOps ops m) := by
  induction ops with
  | nil => exact fun m hm => hm
  | cons o ops ih =>
    intro m hm
    exact ih _ (list_manager_preserves_bucketInv m o.1 o.2 hm)

/-- Claim C4: after any finite sequence of add and remove operations
starting from the empty store, every task in each bucket has the matching
priority, and no task appears in more than one bucket. -/
theorem bucket_invariant_ops (ops : List (Task × Operation)) :
    bucketInv (applyOps ops TaskManager.empty) ∧
    ∀ x : Task,
      ¬(x ∈ (applyOps ops TaskManager.empty).task_low ∧
        x ∈ (applyOps ops TaskManager.empty).task_mid) ∧
      ¬(x ∈ (applyOps ops TaskManager.empty).task_low ∧
        x ∈ (applyOps ops TaskManager.empty).task_high) ∧
      ¬(x ∈ (applyOps ops TaskManager.empty).task_mid ∧
        x ∈ (applyOps ops TaskManager.empty).task_high) := by
  have hinv : bucketInv (applyOps ops TaskManager.empty) :=
    applyOps_preserves_bucketInv ops TaskManager.empty
      (by exact ⟨by simp [TaskManager.empty], by simp [TaskManager.empty],
        by simp [TaskManager.empty]⟩)
  obtain ⟨h1, h2, h3⟩ := hinv
  refine ⟨⟨h1, h2, h3⟩, ?_⟩
  intro x
  refine ⟨?_, ?_, ?_⟩ <;> rintro ⟨ha, hb⟩
  · have := h1 x ha
    have := h2 x hb
    simp_all
  · have := h1 x ha
    have := h3 x hb
    simp_all
  · have := h2 x ha
    have := h3 x hb
    simp_all

/-- Claim C4 witness: a concrete add/add/remove sequence satisfies the
invariant. -/
theorem bucket_invariant_ops_witness :
    bucketInv (applyOps
      [(⟨1, "a", "", .LOW, 5, false⟩, .ADD),
       (⟨2, "b", "", .HIGH, 5, false⟩, .ADD),
       (⟨1, "a", "", .LOW, 5, false⟩, .DELETE)] TaskManager.empty) :=
  (bucket_invariant_ops
    [(⟨1, "a", "", .LOW, 5, false⟩, .ADD),
     (⟨2, "b", "", .HIGH, 5, false⟩, .ADD),
     (⟨1, "a", "", .LOW, 5, false⟩, .DELETE)]).1

/-- A record whose priority parses and whose fields pass the constructor
checks reconstructs to the expected task. -/
theorem from_dict_ok (r : TaskRecord) (oid : Nat) (p : Priority)
    (hp : parsePriority r.priority = some p) (hn : pyStrip r.task_name ≠ "")
    (ht : 0 < r.conclude_time) :
    Task.from_dict r oid =
      .ok ⟨oid, r.task_name, r.description, p, r.conclude_time,
        r._is_completed⟩ := by
  unfold Task.from_dict
  rw [hp]
  unfold Task.init
  simp [hn, not_le.mpr ht]

/-- Reconstructing the record saved from a valid task yields a task with
the same five fields and the fresh oid. -/
theorem from_dict_to_dict (t : Task) (oid : Nat) (hv : validTask t) :
    Task.from_dict (Task.to_dict t) oid =
      .ok ⟨oid, t.task_name, t.description, t.priority, t.conclude_time,
        t._is_completed⟩ := by
  have hp : parsePriority (Task.to_dict t).priority = some t.priority := by
    show parsePriority t.priority.name = some t.priority
    cases t.priority <;> rfl
  exact from_dict_ok _ _ _ hp hv.1 hv.2

/-- An import loop over records that all decode succeeds with no error. -/
theorem importList_all_ok (recs : List TaskRecord) :
    ∀ oid m, (∀ r ∈ recs, recOk r) →
      ∃ oid2 m2, importList recs oid m = (none, oid2, m2) := by
  induction recs with
  | nil => exact fun oid m _ => ⟨oid, m, rfl⟩
  | cons r rest ih =>
    intro oid m hok
    obtain ⟨hps, hn, ht⟩ := hok r (by simp)
    obtain ⟨p, hp⟩ := Option.isSome_iff_exists.mp hps
    simp only [importList, from_dict_ok r oid p hp hn ht]
    exact ih _ _ (fun r2 hr2 => hok r2 (by simp [hr2]))

/-- If the first chunk of an import loop succeeds, the loop continues on
the remainder from the reached state. -/
theorem importList_append_ok (l1 l2 : List TaskRecord) :
    ∀ oid m oid2 m2, importList l1 oid m = (none, oid2, m2) →
      importList (l1 ++ l2) oid m = importList l2 oid2 m2 := by
  induction l1 with
  | nil =>
    intro oid m oid2 m2 h
    obtain ⟨h1, h2⟩ : oid = oid2 ∧ m = m2 := by
      simpa [importList, Prod.ext_iff] using h
    subst h1
    subst h2
    rfl
  | cons r l1 ih =>
    intro oid m oid2 m2 h
    simp only [List.cons_append, importList] at h ⊢
    rcases hfd : Task.from_dict r oid with e | t
    · rw [hfd] at h
      simp at h
    · rw [hfd] at h
      exact ih _ _ _ _ h

/-- An import loop hitting a record with an unrecognised priority aborts
at once, keeping the state it has reached. -/
theorem importList_error_head (r : TaskRecord) (rest : List TaskRecord)
    (oid : Nat) (m : TaskManager) (h : parsePriority r.priority = none) :
    importList (r :: rest) oid m =
      (some "KeyError: priority name not recognised", oid, m) := by
  simp only [importList, Task.from_dict, h]

/-- If the first chunk of an import loop fails, the records appended after
it are never reached. -/
theorem importList_append_err (l1 l2 : List TaskRecord) :
    ∀ oid m e oid2 m2, importList l1 oid m = (some e, oid2, m2) →
      importList (l1 ++ l2) oid m = (some e, oid2, m2) := by
  induction l1 with
  | nil =>
    intro oid m e oid2 m2 h
    simp [importList] at h
  | cons r l1 ih =>
    intro oid m e oid2 m2 h
    simp only [List.cons_append, importList] at h ⊢
    rcases hfd : Task.from_dict r oid with e2 | t
    · rw [hfd] at h
      exact h
    · rw [hfd] at h
      exact ih _ _ _ _ _ h

/-- `import_tasks` behaves as a single import loop over the document's
records in processing order: same reported error, same final store. -/
theorem import_tasks_eq_importList (doc : Document) (oid : Nat)
    (m : TaskManager) :
    import_tasks doc oid m =
      ((importList (docRecords doc) oid m).1,
       (importList (docRecords doc) oid m).2.2) := by
  unfold import_tasks docRecords
  rcases h1 : importList (doc.high.getD []) oid m with ⟨e1, o1, m1⟩
  rcases e1 with _ | e1
  · rcases h2 : importList (doc.mid.getD []) o1 m1 with ⟨e2, o2, m2⟩
    rcases e2 with _ | e2
    · rcases h3 : importList (doc.low.getD []) o2 m2 with ⟨e3, o3, m3⟩
      have hML : importList (doc.mid.getD [] ++ doc.low.getD []) o1 m1 =
          (e3, o3, m3) := by
        rw [importList_append_ok _ _ _ _ _ _ h2, h3]
      have hAll : importList
          (doc.high.getD [] ++ (doc.mid.getD [] ++ doc.low.getD []))
          oid m = (e3, o3, m3) := by
        rw [importList_append_ok _ _ _ _ _ _ h1, hML]
      simp [h1, h2, h3, hAll]
    · have hML := importList_append_err (doc.mid.getD [])
        (doc.low.getD []) o1 m1 e2 o2 m2 h2
      have hAll : importList
          (doc.high.getD [] ++ (doc.mid.getD [] ++ doc.low.getD []))
          oid m = (some e2, o2, m2) := by
        rw [importList_append_ok _ _ _ _ _ _ h1, hML]
      simp [h1, h2, hAll]
  · have hAll := importList_append_err (doc.high.getD [])
      (doc.mid.getD [] ++ doc.low.getD []) oid m e1 o1 m1 h1
    simp [h1, hAll]

/-- A successful import loop grows the store by exactly one task per
record. -/
theorem importList_ok_size (recs : List TaskRecord) :
    ∀ oid m oid2 m2, importList recs oid m = (none, oid2, m2) →
      storeSize m2 = storeSize m + recs.length := by
  induction recs with
  | nil =>
    intro oid m oid2 m2 h
    obtain ⟨h1, h2⟩ : oid = oid2 ∧ m = m2 := by
      simpa [importList, Prod.ext_iff] using h
    simp [h2]
  | cons r rest ih =>
    intro oid m oid2 m2 h
    simp only [importList] at h
    rcases hfd : Task.from_dict r oid with e | t
    · rw [hfd] at h
      simp at h
    · rw [hfd] at h
      have hs := ih _ _ _ _ h
      have hadd : storeSize (m.list_manager t .ADD).1 = storeSize m + 1 := by
        cases htp : t.priority <;>
          simp [TaskManager.list_manager, TaskManager.setBucket,
            TaskManager.bucket, storeSize, htp, List.length_append] <;>
          omega
      rw [hadd] at hs
      simp only [List.length_cons]
      omega

/-- Importing the records saved from a list of valid tasks that all carry
priority `p` appends their clones to bucket `p`. -/
theorem importList_clones (p : Priority) (l : List Task) :
    ∀ oid m, (∀ t ∈ l, validTask t ∧ t.priority = p) →
      importList (l.map Task.to_dict) oid m =
        (none, oid + l.length,
          m.setBucket p (m.bucket p ++ cloneList l oid)) := by
  induction l with
  | nil =>
    intro oid m _
    simp [importList, cloneList, setBucket_bucket_self]
  | cons t ts ih =>
    intro oid m h
    obtain ⟨hv, hp⟩ := h t (by simp)
    simp only [List.map_cons, importList, from_dict_to_dict t oid hv]
    have hadd : (m.list_manager
        ⟨oid, t.task_name, t.description, t.priority, t.conclude_time,
          t._is_completed⟩ .ADD).1 =
        m.setBucket p (m.bucket p ++
          [⟨oid, t.task_name, t.description, t.priority, t.conclude_time,
            t._is_completed⟩]) := by
      simp [TaskManager.list_manager, hp]
    rw [hadd, ih (oid + 1) _ (fun t2 ht2 => h t2 (by simp [ht2]))]
    rw [bucket_setBucket, if_pos rfl, setBucket_setBucket, cloneList]
    simp only [Prod.mk.injEq, List.append_assoc, List.singleton_append,
      List.length_cons, true_and, and_true]
    omega

/-- Cloning preserves the five Python fields of every task, in order. -/
theorem cloneList_map_fieldsOf (l : List Task) :
    ∀ oid, (cloneList l oid).map fieldsOf = l.map fieldsOf := by
  induction l with
  | nil => intro _; rfl
  | cons t ts ih =>
    intro oid
    simp [cloneList, fieldsOf, ih]

/-- Claim C8: decoding a well-formed document from which one or two of the
three top-level keys are absent raises no error and behaves exactly as if
each missing key mapped to an empty sequence, adding only the tasks under
the keys that are present. -/
theorem import_missing_keys (doc : Document) (oid : Nat) (m : TaskManager)
    (_hmiss : doc.high = none ∨ doc.mid = none ∨ doc.low = none)
    (hok : ∀ r ∈ doc.high.getD [] ++ doc.mid.getD [] ++ doc.low.getD [],
      recOk r) :
    (import_tasks doc oid m).1 = none ∧
    import_tasks doc oid m =
      import_tasks ⟨some (doc.high.getD []), some (doc.mid.getD []),
        some (doc.low.getD [])⟩ oid m := by
  refine ⟨?_, rfl⟩
  obtain ⟨o1, m1, he1⟩ := importList_all_ok (doc.high.getD []) oid m
    (fun r hr => hok r (by simp [hr]))
  obtain ⟨o2, m2, he2⟩ := importList_all_ok (doc.mid.getD []) o1 m1
    (fun r hr => hok r (by simp [hr]))
  obtain ⟨o3, m3, he3⟩ := importList_all_ok (doc.low.getD []) o2 m2
    (fun r hr => hok r (by simp [hr]))
  simp [import_tasks, he1, he2, he3]

/-- Claim C8 witness: a document carrying only the "high" key decodes with
no error. -/
theorem import_missing_keys_witness :
    (import_tasks
      ⟨some [⟨"report", "", "HIGH", 5, false⟩], none, none⟩ 0
      TaskManager.empty).1 = none :=
  (import_missing_keys
    ⟨some [⟨"report", "", "HIGH", 5, false⟩], none, none⟩ 0
    TaskManager.empty (Or.inr (Or.inl rfl)) (by decide)).1

/-- Claim C2 as stated is false on the code: records decoded before the
malformed one have already been added when the exception is raised, so the
store is not left as it was. Here the document's first "high" record is
valid and the second has priority "URGENT"; decoding errors but the store
gains the first task. -/
theorem import_partial_mutation_cex :
    (import_tasks ⟨some [⟨"good", "", "HIGH", 5, false⟩,
        ⟨"bad", "", "URGENT", 5, false⟩], none, none⟩ 0
      TaskManager.empty).1.isSome = true ∧
    (import_tasks ⟨some [⟨"good", "", "HIGH", 5, false⟩,
        ⟨"bad", "", "URGENT", 5, false⟩], none, none⟩ 0
      TaskManager.empty).2 ≠ TaskManager.empty ∧
    (import_tasks ⟨some [⟨"good", "", "HIGH", 5, false⟩,
        ⟨"bad", "", "URGENT", 5, false⟩], none, none⟩ 0
      TaskManager.empty).2.task_high =
      [⟨0, "good", "", .HIGH, 5, false⟩] := by
  decide

/-- Claim C2 amended: decoding a document whose first non-decodable
record (in the high, mid, low processing order, wherever it sits) has an
unrecognised priority string fails with a reported error; decoding stops
at that record, tasks decoded from earlier records remain added, and the
store is unchanged if and only if no record was decoded before the
malformed one. -/
theorem import_bad_priority_behavior (doc : Document) (oid : Nat)
    (m : TaskManager) (good : List TaskRecord) (bad : TaskRecord)
    (rest : List TaskRecord)
    (hsplit : docRecords doc = good ++ bad :: rest)
    (hgood : ∀ r ∈ good, recOk r)
    (hbad : parsePriority bad.priority = none) :
    (import_tasks doc oid m).1.isSome = true ∧
    (import_tasks doc oid m).2 = (importList good oid m).2.2 ∧
    ((import_tasks doc oid m).2 = m ↔ good = []) := by
  obtain ⟨o1, m1, he1⟩ := importList_all_ok good oid m hgood
  have hall : importList (docRecords doc) oid m =
      (some "KeyError: priority name not recognised", o1, m1) := by
    rw [hsplit, importList_append_ok good (bad :: rest) oid m o1 m1 he1,
      importList_error_head bad rest o1 m1 hbad]
  have himp : import_tasks doc oid m =
      (some "KeyError: priority name not recognised", m1) := by
    rw [import_tasks_eq_importList, hall]
  have hsz : storeSize m1 = storeSize m + good.length :=
    importList_ok_size good oid m o1 m1 he1
  refine ⟨by simp [himp], by simp [himp, he1], ?_⟩
  rw [himp]
  show m1 = m ↔ good = []
  constructor
  · intro hmm
    subst hmm
    rcases good with _ | ⟨g, gs⟩
    · rfl
    · exfalso
      simp only [List.length_cons] at hsz
      omega
  · intro hge
    subst hge
    have hmm : oid = o1 ∧ m = m1 := by
      simpa [importList, Prod.ext_iff] using he1
    exact hmm.2.symm

/-- Claim C2 amended witness: a document whose malformed record sits in
the "low" list after a good "high" record errors and keeps exactly the
decoded prefix. -/
theorem import_bad_priority_behavior_witness :
    (import_tasks ⟨some [⟨"good", "", "HIGH", 5, false⟩], none,
        some [⟨"x", "", "URGENT", 5, false⟩]⟩ 0
      TaskManager.empty).1.isSome = true ∧
    (import_tasks ⟨some [⟨"good", "", "HIGH", 5, false⟩], none,
        some [⟨"x", "", "URGENT", 5, false⟩]⟩ 0
      TaskManager.empty).2 =
      (importList [⟨"good", "", "HIGH", 5, false⟩] 0
        TaskManager.empty).2.2 := by
  have h := import_bad_priority_behavior
    ⟨some [⟨"good", "", "HIGH", 5, false⟩], none,
     some [⟨"x", "", "URGENT", 5, false⟩]⟩ 0 TaskManager.empty
    [⟨"good", "", "HIGH", 5, false⟩] ⟨"x", "", "URGENT", 5, false⟩ []
    rfl (by decide) (by decide)
  exact ⟨h.1, h.2.1⟩

/-- Claim C1: decoding the document produced by encoding a store state S
(valid tasks, buckets matching priorities) into a fresh empty store raises
no error and reproduces each of the three buckets with the same
membership, the same order, and per-task equality of all five fields,
including the completed flag. -/
theorem decode_encode_roundtrip (S : TaskManager) (oid : Nat)
    (hv : validStore S) (hb : bucketInv S) :
    (import_tasks (save_tasks S) oid TaskManager.empty).1 = none ∧
    (import_tasks (save_tasks S) oid TaskManager.empty).2.task_low.map
        fieldsOf = S.task_low.map fieldsOf ∧
    (import_tasks (save_tasks S) oid TaskManager.empty).2.task_mid.map
        fieldsOf = S.task_mid.map fieldsOf ∧
    (import_tasks (save_tasks S) oid TaskManager.empty).2.task_high.map
        fieldsOf = S.task_high.map fieldsOf := by
  obtain ⟨hv1, hv2, hv3⟩ := hv
  obtain ⟨hb1, hb2, hb3⟩ := hb
  have h1 := importList_clones .HIGH S.task_high oid TaskManager.empty
    (fun t ht => ⟨hv3 t ht, hb3 t ht⟩)
  have h2 := importList_clones .MID S.task_mid (oid + S.task_high.length)
    (TaskManager.mk [] [] (cloneList S.task_high oid))
    (fun t ht => ⟨hv2 t ht, hb2 t ht⟩)
  have h3 := importList_clones .LOW S.task_low
    (oid + S.task_high.length + S.task_mid.length)
    (TaskManager.mk [] (cloneList S.task_mid (oid + S.task_high.length))
      (cloneList S.task_high oid))
    (fun t ht => ⟨hv1 t ht, hb1 t ht⟩)
  have e1 : TaskManager.empty.setBucket .HIGH
      (TaskManager.empty.bucket .HIGH ++ cloneList S.task_high oid) =
      TaskManager.mk [] [] (cloneList S.task_high oid) := rfl
  have e2 : (TaskManager.mk [] [] (cloneList S.task_high oid)).setBucket
      .MID ((TaskManager.mk [] [] (cloneList S.task_high oid)).bucket .MID
        ++ cloneList S.task_mid (oid + S.task_high.length)) =
      TaskManager.mk [] (cloneList S.task_mid (oid + S.task_high.length))
        (cloneList S.task_high oid) := rfl
  have e3 : (TaskManager.mk []
      (cloneList S.task_mid (oid + S.task_high.length))
      (cloneList S.task_high oid)).setBucket .LOW
      ((TaskManager.mk [] (cloneList S.task_mid (oid + S.task_high.length))
        (cloneList S.task_high oid)).bucket .LOW ++
        cloneList S.task_low
          (oid + S.task_high.length + S.task_mid.length)) =
      TaskManager.mk
        (cloneList S.task_low
          (oid + S.task_high.length + S.task_mid.length))
        (cloneList S.task_mid (oid + S.task_high.length))
        (cloneList S.task_high oid) := rfl
  rw [e1] at h1
  rw [e2] at h2
  rw [e3] at h3
  have himp : import_tasks (save_tasks S) oid TaskManager.empty =
      (none, TaskManager.mk
        (cloneList S.task_low
          (oid + S.task_high.length + S.task_mid.length))
        (cloneList S.task_mid (oid + S.task_high.length))
        (cloneList S.task_high oid)) := by
    simp only [import_tasks, save_tasks, Option.getD_some, h1, h2, h3]
  rw [himp]
  exact ⟨rfl, cloneList_map_fieldsOf _ _, cloneList_map_fieldsOf _ _,
    cloneList_map_fieldsOf _ _⟩

/-- Claim C1 witness: a store with one completed LOW task and one fresh
HIGH task round-trips through save and import with identical fields. -/
theorem decode_encode_roundtrip_witness :
    (import_tasks (save_tasks
      ⟨[⟨5, "laundry", "", .LOW, 30, true⟩], [],
       [⟨7, "Write report", "Q3 summary", .HIGH, 25, false⟩]⟩) 0
      TaskManager.empty).1 = none ∧
    (import_tasks (save_tasks
      ⟨[⟨5, "laundry", "", .LOW, 30, true⟩], [],
       [⟨7, "Write report", "Q3 summary", .HIGH, 25, false⟩]⟩) 0
      TaskManager.empty).2.task_low.map fieldsOf =
      [⟨5, "laundry", "", .LOW, 30, true⟩].map fieldsOf := by
  have h := decode_encode_roundtrip
    ⟨[⟨5, "laundry", "", .LOW, 30, true⟩], [],
     [⟨7, "Write report", "Q3 summary", .HIGH, 25, false⟩]⟩ 0
    (by decide) (by decide)
  exact ⟨h.1, h.2.1⟩

end TaskM
